import Mathlib

/-!
# delete-default-vpc: the per-region teardown pipeline and its dispatch

A shallow embedding of `main.go`.  The EC2 service is a remote system: the
program only sees the answers to the requests it sends.  A client is therefore
a family of answer functions, one per operation, each taking the list of
requests the client has sent so far (so the answer to a request may depend on
everything that happened before) and the arguments of the request.

Go's `(result, err)` pairs are pairs of options (`none` is `nil`).  The
identifier of an element of a describe answer is read through pointers
(`*result.Vpcs[0].VpcId`); an element is represented by what that read yields,
`none` when the element or its identifier is `nil`, in which case the read
panics.

A run of a function is recorded as the requests it sent (`calls`) and the
lines it wrote to standard output (`out`), each goroutine having its own
record.
-/

namespace DeleteDefaultVpc

/-! ## Data model -/

/-- A Go `error` value: `aws` tells whether it is an `awserr.Error`, `text`
is what its `Error()` method returns. -/
structure GoError where
  aws : Bool
  text : String
deriving DecidableEq

/-- A request sent to the EC2 service through a region-bound client, with the
arguments the program sets. -/
inductive Call where
  | DescribeRegions
  | DescribeVpcs
  | DescribeInternetGateways (vpcID : String)
  | DetachInternetGateway (igw vpcID : String)
  | DeleteInternetGateway (igw : String)
  | DescribeSubnets (vpcID : String)
  | DeleteSubnet (s : String)
  | DeleteVpc (vpcID : String)
deriving DecidableEq

/-- The answer `*ec2.DescribeRegionsOutput`; an element is `*region.RegionName`. -/
structure DescribeRegionsOutput where
  Regions : List (Option String)
deriving DecidableEq

/-- The answer `*ec2.DescribeVpcsOutput`; an element is `*vpc.VpcId`. -/
structure DescribeVpcsOutput where
  Vpcs : List (Option String)
deriving DecidableEq

/-- The answer `*ec2.DescribeInternetGatewaysOutput`; an element is
`*gateway.InternetGatewayId`. -/
structure DescribeInternetGatewaysOutput where
  InternetGateways : List (Option String)
deriving DecidableEq

/-- The answer `*ec2.DescribeSubnetsOutput`; an element is `*subnet.SubnetId`. -/
structure DescribeSubnetsOutput where
  Subnets : List (Option String)
deriving DecidableEq

/-- A region-bound client `*ec2.EC2`.  Each operation takes the requests sent
so far through this client and the arguments of the request, and gives the
answer of the service. -/
structure EC2 where
  DescribeRegions : List Call → Option DescribeRegionsOutput × Option GoError
  DescribeVpcs : List Call → Option DescribeVpcsOutput × Option GoError
  DescribeInternetGateways :
    List Call → String → Option DescribeInternetGatewaysOutput × Option GoError
  DetachInternetGateway : List Call → String → String → Option GoError
  DeleteInternetGateway : List Call → String → Option GoError
  DescribeSubnets : List Call → String → Option DescribeSubnetsOutput × Option GoError
  DeleteSubnet : List Call → String → Option GoError
  DeleteVpc : List Call → String → Option GoError

/-- The session `client.ConfigProvider`: what the service of each region
answers. -/
abbrev Session := String → EC2

/-- The call `ec2.New(sess, aws.NewConfig().WithRegion(region))`. -/
def ec2New (sess : Session) (region : String) : EC2 := sess region

/-- What a run has done so far: the requests sent and the lines printed. -/
structure Run where
  calls : List Call
  out : List String
deriving DecidableEq

/-- The run that has done nothing yet. -/
def Run.start : Run := ⟨[], []⟩

/-- Record a request sent to the service. -/
def Run.call (st : Run) (c : Call) : Run := { st with calls := st.calls ++ [c] }

/-- Record a line written by `fmt.Printf` or `fmt.Println` (without its newline). -/
def Run.print (st : Run) (line : String) : Run := { st with out := st.out ++ [line] }

/-- How a function ends: it returns to its caller, or a `nil` dereference
panics. -/
inductive Exec where
  | returned (st : Run)
  | panicked (st : Run)
deriving DecidableEq

/-- The run recorded when the function ended. -/
def Exec.run : Exec → Run
  | .returned st => st
  | .panicked st => st

/-- Whether the function ended in a panic. -/
def Exec.isPanicked : Exec → Bool
  | .returned _ => false
  | .panicked _ => true

/-- Sequencing of statements: the next statement runs when the previous call
returned; a panic unwinds. -/
def Exec.andThen : Exec → (Run → Exec) → Exec
  | .returned st, k => k st
  | .panicked st, _ => .panicked st

/-! ## The program -/

/-- Function `handleError` (lines 158-167): both branches print the error's text. -/
def handleError (err : GoError) (st : Run) : Run :=
  match err.aws with
  | true => st.print err.text
  | false => st.print err.text

/-- The loop of `getRegions` (lines 37-39): the names appended to `output`,
`none` when a `*region.RegionName` read panics. -/
def getRegionsLoop : List (Option String) → List String → Option (List String)
  | [], output => some output
  | none :: _, _ => none
  | some name :: rest, output => getRegionsLoop rest (output ++ [name])

/-- Function `getRegions` (lines 28-45).  The result is the returned slice, `none` for
`nil`. -/
def getRegions (svc : EC2) (st : Run) : Option (List String) × Exec :=
  let (result, err) := svc.DescribeRegions st.calls
  let st := st.call .DescribeRegions
  match err with
  | some e => (none, .returned (handleError e st))
  | none =>
    match result with
    | some result =>
      match getRegionsLoop result.Regions [] with
      | some output => (some output, .returned st)
      | none => (none, .panicked st)
    | none => (none, .returned (st.print "Error: no regions found"))

/-- Function `deleteInternetGateway` (lines 73-112). -/
def deleteInternetGateway (svc : EC2) (region vpcID : String) (st : Run) : Exec :=
  let (result, err) := svc.DescribeInternetGateways st.calls vpcID
  let st := st.call (.DescribeInternetGateways vpcID)
  match err with
  | some e => .returned (handleError e st)
  | none =>
    match result with
    | some ⟨gateway :: _⟩ =>
      match gateway with
      | none => .panicked st
      | some igw =>
        let st := st.print
          ("[" ++ region ++ "] Detaching and deleting internet gateway: " ++ igw)
        let err := svc.DetachInternetGateway st.calls igw vpcID
        let st := st.call (.DetachInternetGateway igw vpcID)
        match err with
        | some e => .returned (handleError e st)
        | none =>
          let err := svc.DeleteInternetGateway st.calls igw
          let st := st.call (.DeleteInternetGateway igw)
          match err with
          | some e => .returned (handleError e st)
          | none => .returned st
    | _ =>
      .returned (st.print
        ("[" ++ region ++ "] No internet gateway found for vpc " ++ vpcID))

/-- The loop of `deleteSubnets` (lines 131-141) over the listed subnets. -/
def deleteSubnetsLoop (svc : EC2) (region : String) : List (Option String) → Run → Exec
  | [], st => .returned st
  | none :: _, st => .panicked st
  | some s :: rest, st =>
    let st := st.print ("[" ++ region ++ "] Deleting subnet: " ++ s)
    let err := svc.DeleteSubnet st.calls s
    let st := st.call (.DeleteSubnet s)
    match err with
    | some e => .returned (handleError e st)
    | none => deleteSubnetsLoop svc region rest st

/-- Function `deleteSubnets` (lines 114-145). -/
def deleteSubnets (svc : EC2) (region vpcID : String) (st : Run) : Exec :=
  let (result, err) := svc.DescribeSubnets st.calls vpcID
  let st := st.call (.DescribeSubnets vpcID)
  match err with
  | some e => .returned (handleError e st)
  | none =>
    match result with
    | some ⟨subnet :: rest⟩ => deleteSubnetsLoop svc region (subnet :: rest) st
    | _ => .returned (st.print ("[" ++ region ++ "] No subnets found for vpc " ++ vpcID))

/-- Function `deleteVpc` (lines 147-156). -/
def deleteVpc (svc : EC2) (region vpcID : String) (st : Run) : Exec :=
  let st := st.print ("[" ++ region ++ "] Deleting VPC: " ++ vpcID)
  let err := svc.DeleteVpc st.calls vpcID
  let st := st.call (.DeleteVpc vpcID)
  match err with
  | some e => .returned (handleError e st)
  | none => .returned st

/-- Function `deleteDefaultVpc` (lines 47-71), the worker of one region.  The deferred
`wg.Done()` is counted by `main`. -/
def deleteDefaultVpc (sess : Session) (region : String) : Exec :=
  let svc := ec2New sess region
  let st := Run.start
  let (result, err) := svc.DescribeVpcs st.calls
  let st := st.call .DescribeVpcs
  match err with
  | some e => .returned (handleError e st)
  | none =>
    match result with
    | some ⟨vpc :: _⟩ =>
      match vpc with
      | none => .panicked st
      | some vpcID =>
        let st := st.print ("[" ++ region ++ "] Found default VPC: " ++ vpcID)
        (deleteInternetGateway svc region vpcID st).andThen fun st =>
        (deleteSubnets svc region vpcID st).andThen fun st =>
        deleteVpc svc region vpcID st
    | _ => .returned (st.print ("[" ++ region ++ "] No default VPC found"))

/-- The dispatch of lines 189-201.  The sending goroutine puts the regions on
the unbuffered channel `r` one by one and closes it; the loop `range r` takes
each value sent, adds one to `wg` and starts a worker for it, and ends when
the channel is closed.  The state is the counter of `wg` and the regions for
which a worker was started, in starting order. -/
def dispatchLoop : List String → Nat × List String → Nat × List String
  | [], acc => acc
  | region :: rest, (wg, workers) => dispatchLoop rest (wg + 1, workers ++ [region])

/-- What `main` leaves behind: the run of the main goroutine, the run of each
worker started (with its region), and the counter of `wg` when `wg.Wait()`
returns. -/
structure MainResult where
  run : Exec
  workers : List (String × Exec)
  wg : Nat

/-- Function `main` from line 184 on, the session having been created and the
caller identity shown.  Each worker started is a goroutine of its own and ends
with `wg.Done()`; the run recorded for a worker is the one it makes when left
to finish.  What the goroutines have got done when a panic ends the process
is given by `runMain` below. -/
def main (sess : Session) : MainResult :=
  let svc := ec2New sess "us-east-1"
  match getRegions svc Run.start with
  | (_, .panicked st) => ⟨.panicked st, [], 0⟩
  | (regions, .returned st) =>
    let regions := regions.getD []
    let st := st.print ("Regions: [" ++ " ".intercalate regions ++ "]")
    let (wg, started) := dispatchLoop regions (0, [])
    let workers := started.map fun region => (region, deleteDefaultVpc sess region)
    ⟨.returned st, workers, wg - workers.length⟩

/-- How far a goroutine has got: the number of requests it has sent and of
lines it has printed. -/
structure Progress where
  calls : Nat
  lines : Nat
deriving DecidableEq

/-- What is done of a run when the goroutine is stopped at the given
progress. -/
def Run.upTo (st : Run) (p : Progress) : Run :=
  ⟨st.calls.take p.calls, st.out.take p.lines⟩

/-- A schedule of the worker goroutines, as far as it shows in what they get
done when a panic ends the process: `first` is the position (from 0, in
starting order) of the worker that gets to its panic first, and `progress i`
is how far the worker at position `i` has got by then.  The workers run
independently of one another, so every interleaving of them gives such a
position and such a progress for each worker.  Requests and lines are recorded
apart, so a progress counts them apart. -/
structure Schedule where
  first : Nat
  progress : Nat → Progress

/-- The position of the worker whose panic ends the process: the one the
schedule names when that worker panics, else the first one that panics. -/
def panicsFirst (sched : Schedule) (workers : List (String × Exec)) : Nat :=
  match workers[sched.first]? with
  | some w =>
    if w.2.isPanicked then sched.first else workers.findIdx (fun w => w.2.isPanicked)
  | none => workers.findIdx (fun w => w.2.isPanicked)

/-- What the workers started from position `i` on have got done when the panic
of the worker at position `p` ends the process: that worker its whole run, the
others what the schedule has let them do. -/
def stoppedFrom (sched : Schedule) (p : Nat) :
    Nat → List (String × Exec) → List (String × Run)
  | _, [] => []
  | i, w :: rest =>
    (w.1, if i = p then w.2.run else w.2.run.upTo (sched.progress i))
      :: stoppedFrom sched p (i + 1) rest

/-- What the program as a whole has done when the process ends: whether a
panic ended it, and for each worker its region and the part of its run it got
done. -/
structure ProcessResult where
  crashed : Bool
  observed : List (String × Run)

/-- The process running `main` (from line 184 on) under a schedule.  When no
goroutine panics, `wg.Wait()` (line 202) returns after every worker has
finished its run.  An unrecovered panic, of `main` in `getRegions` or of a
worker (the `nil` reads at lines 38, 63, 89 and 132; nothing in the program
recovers), ends the whole process at once, every other worker being stopped
where the schedule has it. -/
def runMain (sess : Session) (sched : Schedule) : ProcessResult :=
  let m := main sess
  if m.run.isPanicked || m.workers.any (fun w => w.2.isPanicked) then
    ⟨true, stoppedFrom sched (panicsFirst sched m.workers) 0 m.workers⟩
  else
    ⟨false, m.workers.map fun w => (w.1, w.2.run)⟩

/-! ## Vocabulary of the statements and sample services -/

/-- The request detaches an internet gateway. -/
def Call.isDetach : Call → Bool
  | .DetachInternetGateway _ _ => true
  | _ => false

/-- The request deletes an internet gateway. -/
def Call.isDeleteGateway : Call → Bool
  | .DeleteInternetGateway _ => true
  | _ => false

/-- The request deletes a subnet. -/
def Call.isDeleteSubnet : Call → Bool
  | .DeleteSubnet _ => true
  | _ => false

/-- The request deletes a VPC. -/
def Call.isDeleteVpc : Call → Bool
  | .DeleteVpc _ => true
  | _ => false

/-- The lines the loop of `deleteSubnets` prints for the given subnets. -/
def subnetLines (region : String) (subs : List String) : List String :=
  subs.map fun s => "[" ++ region ++ "] Deleting subnet: " ++ s

/-- The run of the worker up to the first step, when the default VPC `v` was found. -/
def foundVpc (region v : String) : Run :=
  ⟨[.DescribeVpcs], ["[" ++ region ++ "] Found default VPC: " ++ v]⟩

/-- A service on which every request succeeds: default VPC `v1`, gateway `g1`,
subnets `s1`, `s2`; regions `a`, `b`. -/
def okSvc : EC2 where
  DescribeRegions := fun _ => (some ⟨[some "a", some "b"]⟩, none)
  DescribeVpcs := fun _ => (some ⟨[some "v1"]⟩, none)
  DescribeInternetGateways := fun _ _ => (some ⟨[some "g1"]⟩, none)
  DetachInternetGateway := fun _ _ _ => none
  DeleteInternetGateway := fun _ _ => none
  DescribeSubnets := fun _ _ => (some ⟨[some "s1", some "s2"]⟩, none)
  DeleteSubnet := fun _ _ => none
  DeleteVpc := fun _ _ => none

/-- A service whose second subnet deletion fails. -/
def subnetFailSvc : EC2 :=
  { okSvc with
    DescribeSubnets := fun _ _ => (some ⟨[some "s1", some "s2", some "s3"]⟩, none)
    DeleteSubnet := fun _ s => if s = "s2" then some ⟨true, "DependencyViolation"⟩ else none }

/-- A service with no default VPC. -/
def noVpcSvc : EC2 := { okSvc with DescribeVpcs := fun _ => (some ⟨[]⟩, none) }

/-- A service with a default VPC and no internet gateway. -/
def noGatewaySvc : EC2 :=
  { okSvc with DescribeInternetGateways := fun _ _ => (some ⟨[]⟩, none) }

/-- A service whose detach request fails. -/
def detachFailSvc : EC2 :=
  { okSvc with DetachInternetGateway := fun _ _ _ => some ⟨true, "Gateway.NotAttached"⟩ }

/-- A service whose gateway deletion fails. -/
def deleteGatewayFailSvc : EC2 :=
  { okSvc with DeleteInternetGateway := fun _ _ => some ⟨true, "DependencyViolation"⟩ }

/-- A service that lists two VPCs, a gateway and two subnets, and on which
every detach and deletion fails. -/
def allFailSvc : EC2 where
  DescribeRegions := fun _ => (none, some ⟨false, "timeout"⟩)
  DescribeVpcs := fun _ => (some ⟨[some "v1", some "v2"]⟩, none)
  DescribeInternetGateways := fun _ _ => (some ⟨[some "g1"]⟩, none)
  DetachInternetGateway := fun _ _ _ => some ⟨true, "UnauthorizedOperation"⟩
  DeleteInternetGateway := fun _ _ => some ⟨true, "UnauthorizedOperation"⟩
  DescribeSubnets := fun _ _ => (some ⟨[some "s1", some "s2"]⟩, none)
  DeleteSubnet := fun _ _ => some ⟨true, "UnauthorizedOperation"⟩
  DeleteVpc := fun _ _ => some ⟨true, "UnauthorizedOperation"⟩

/-- Two clients give the same answers to every request a worker can send. -/
def SameAnswers (a b : EC2) : Prop :=
  (∀ h, a.DescribeVpcs h = b.DescribeVpcs h) ∧
  (∀ h v, a.DescribeInternetGateways h v = b.DescribeInternetGateways h v) ∧
  (∀ h g v, a.DetachInternetGateway h g v = b.DetachInternetGateway h g v) ∧
  (∀ h g, a.DeleteInternetGateway h g = b.DeleteInternetGateway h g) ∧
  (∀ h v, a.DescribeSubnets h v = b.DescribeSubnets h v) ∧
  (∀ h s, a.DeleteSubnet h s = b.DeleteSubnet h s) ∧
  (∀ h v, a.DeleteVpc h v = b.DeleteVpc h v)

/-- A service whose region query succeeds with an empty list of regions. -/
def emptyRegionsSvc : EC2 := { okSvc with DescribeRegions := fun _ => (some ⟨[]⟩, none) }

/-- Every resource the service lists carries its identifier, so that no read
of an identifier panics. -/
def IdsListed (svc : EC2) : Prop :=
  (∀ h out, svc.DescribeRegions h = (some out, none) → none ∉ out.Regions) ∧
  (∀ h out rest, svc.DescribeVpcs h = (some out, none) → out.Vpcs ≠ none :: rest) ∧
  (∀ h v out rest, svc.DescribeInternetGateways h v = (some out, none) →
    out.InternetGateways ≠ none :: rest) ∧
  (∀ h v out, svc.DescribeSubnets h v = (some out, none) → none ∉ out.Subnets)

/-- A session in which every region is served by `okSvc`. -/
def okSess : Session := fun _ => okSvc

/-- The same session with every detach and deletion of region `a` failing. -/
def failingASess : Session := fun region => if region = "a" then allFailSvc else okSvc

/-- The same session with region `a` listing a default VPC that has no
identifier. -/
def nilIdASess : Session := fun region =>
  if region = "a" then { okSvc with DescribeVpcs := fun _ => (some ⟨[none]⟩, none) }
  else okSvc

/-- The schedule under which the panic of the first worker started ends the
process when every other worker has sent its first request and printed
nothing yet. -/
def firstRequestSent : Schedule := ⟨0, fun _ => ⟨1, 0⟩⟩

/-! ## Bookkeeping of runs -/

/-- Recording a request appends it to the requests. -/
@[simp] theorem Run.call_calls (st : Run) (c : Call) : (st.call c).calls = st.calls ++ [c] := rfl

/-- Recording a request prints nothing. -/
@[simp] theorem Run.call_out (st : Run) (c : Call) : (st.call c).out = st.out := rfl

/-- Printing sends no request. -/
@[simp] theorem Run.print_calls (st : Run) (l : String) : (st.print l).calls = st.calls := rfl

/-- Printing appends the line to the output. -/
@[simp] theorem Run.print_out (st : Run) (l : String) : (st.print l).out = st.out ++ [l] := rfl

/-- The starting run has sent nothing. -/
@[simp] theorem Run.start_calls : Run.start.calls = [] := rfl

/-- The starting run has printed nothing. -/
@[simp] theorem Run.start_out : Run.start.out = [] := rfl

/-- Reporting an error sends no request. -/
@[simp] theorem handleError_calls (e : GoError) (st : Run) :
    (handleError e st).calls = st.calls := by
  unfold handleError; split <;> rfl

/-- Reporting an error prints its text. -/
@[simp] theorem handleError_out (e : GoError) (st : Run) :
    (handleError e st).out = st.out ++ [e.text] := by
  unfold handleError; split <;> rfl

/-- The run of a function that returned. -/
@[simp] theorem Exec.run_returned (st : Run) : (Exec.returned st).run = st := rfl

/-- The run of a function that panicked. -/
@[simp] theorem Exec.run_panicked (st : Run) : (Exec.panicked st).run = st := rfl

/-- After a return the next statement runs. -/
@[simp] theorem Exec.andThen_returned (st : Run) (k : Run → Exec) :
    (Exec.returned st).andThen k = k st := rfl

/-- After a panic nothing more runs. -/
@[simp] theorem Exec.andThen_panicked (st : Run) (k : Run → Exec) :
    (Exec.panicked st).andThen k = .panicked st := rfl

/-- A list of subnet deletions holds as many subnet deletions as subnets. -/
theorem countP_map_deleteSubnet (subs : List String) :
    (subs.map Call.DeleteSubnet).countP Call.isDeleteSubnet = subs.length := by
  induction subs with
  | nil => rfl
  | cons s rest ih => simp [List.countP_cons, Call.isDeleteSubnet, ih]

/-- A list of subnet deletions holds no request of another kind. -/
theorem countP_map_deleteSubnet_other (p : Call → Bool) (hp : ∀ s, p (.DeleteSubnet s) = false)
    (subs : List String) : (subs.map Call.DeleteSubnet).countP p = 0 := by
  induction subs with
  | nil => rfl
  | cons s rest ih => simp [List.countP_cons, hp, ih]

/-- A detach or a gateway deletion is not a VPC deletion. -/
theorem isDeleteVpc_false_of_gateway (c : Call)
    (h : c.isDetach = true ∨ c.isDeleteGateway = true) : c.isDeleteVpc = false := by
  cases c <;> simp_all [Call.isDetach, Call.isDeleteGateway, Call.isDeleteVpc]

/-- A subnet deletion is not a VPC deletion. -/
theorem isDeleteVpc_false_of_subnet (c : Call) (h : c.isDeleteSubnet = true) :
    c.isDeleteVpc = false := by
  cases c <;> simp_all [Call.isDeleteSubnet, Call.isDeleteVpc]

/-! ## The steps of the pipeline -/

/-- The requests `deleteInternetGateway` adds: the gateway query, then only
detach and gateway deletion requests. -/
theorem deleteInternetGateway_shape (svc : EC2) (region v : String) (st : Run) :
    ∃ tail, (deleteInternetGateway svc region v st).run.calls
        = st.calls ++ .DescribeInternetGateways v :: tail ∧
      ∀ c ∈ tail, c.isDetach = true ∨ c.isDeleteGateway = true := by
  unfold deleteInternetGateway
  rcases hq : svc.DescribeInternetGateways st.calls v with ⟨result, err⟩
  cases err with
  | some e => exact ⟨[], by simp⟩
  | none =>
    rcases result with _ | ⟨_ | ⟨gateway, rest⟩⟩
    · exact ⟨[], by simp⟩
    · exact ⟨[], by simp⟩
    · cases gateway with
      | none => exact ⟨[], by simp⟩
      | some igw =>
        simp only [Run.print_calls, Run.call_calls]
        cases hdet : svc.DetachInternetGateway (st.calls ++ [.DescribeInternetGateways v]) igw v with
        | some e => exact ⟨[.DetachInternetGateway igw v], by simp [Call.isDetach]⟩
        | none =>
          cases hdel : svc.DeleteInternetGateway
              (st.calls ++ [.DescribeInternetGateways v] ++ [.DetachInternetGateway igw v]) igw with
          | some e =>
            exact ⟨[.DetachInternetGateway igw v, .DeleteInternetGateway igw],
              by simp [Call.isDetach, Call.isDeleteGateway]⟩
          | none =>
            exact ⟨[.DetachInternetGateway igw v, .DeleteInternetGateway igw],
              by simp [Call.isDetach, Call.isDeleteGateway]⟩

/-- Function `deleteInternetGateway` returns when the first listed gateway has its
identifier. -/
theorem deleteInternetGateway_returns (svc : EC2) (region v : String) (st : Run)
    (hg : ∀ out rest, svc.DescribeInternetGateways st.calls v = (some out, none) →
      out.InternetGateways ≠ none :: rest) :
    ∃ st1, deleteInternetGateway svc region v st = .returned st1 := by
  unfold deleteInternetGateway
  rcases hq : svc.DescribeInternetGateways st.calls v with ⟨result, err⟩
  cases err with
  | some e => exact ⟨_, rfl⟩
  | none =>
    rcases result with _ | ⟨_ | ⟨gateway, rest⟩⟩
    · exact ⟨_, rfl⟩
    · exact ⟨_, rfl⟩
    · cases gateway with
      | none => exact absurd rfl (hg ⟨none :: rest⟩ rest hq)
      | some igw =>
        simp only [Run.print_calls, Run.call_calls]
        cases svc.DetachInternetGateway (st.calls ++ [.DescribeInternetGateways v]) igw v with
        | some e => exact ⟨_, rfl⟩
        | none =>
          cases svc.DeleteInternetGateway
              (st.calls ++ [.DescribeInternetGateways v] ++ [.DetachInternetGateway igw v]) igw with
          | some e => exact ⟨_, rfl⟩
          | none => exact ⟨_, rfl⟩

/-- The gateway step depends on the client through its answers only. -/
theorem deleteInternetGateway_congr (a b : EC2) (h : SameAnswers a b)
    (region v : String) (st : Run) :
    deleteInternetGateway a region v st = deleteInternetGateway b region v st := by
  obtain ⟨-, h2, h3, h4, -⟩ := h
  simp only [deleteInternetGateway, h2, h3, h4]

/-- The loop, when the deletion of the subnet at position `j` (from 0) fails
after the earlier ones succeeded: it returns after that request. -/
theorem deleteSubnetsLoop_fail_at (svc : EC2) (region : String) (e : GoError) :
    ∀ (subs : List String) (j : Nat) (sj : String) (st : Run),
      subs[j]? = some sj →
      (∀ i s, i < j → subs[i]? = some s →
        svc.DeleteSubnet (st.calls ++ (subs.take i).map Call.DeleteSubnet) s = none) →
      svc.DeleteSubnet (st.calls ++ (subs.take j).map Call.DeleteSubnet) sj = some e →
      ∃ st2, deleteSubnetsLoop svc region (subs.map some) st = .returned st2 ∧
        st2.calls = st.calls ++ (subs.take (j + 1)).map Call.DeleteSubnet
  | [], j, sj, st, hj, _, _ => by simp at hj
  | s :: rest, 0, sj, st, hj, _, hfail => by
    simp at hj
    subst hj
    simp at hfail
    simp [deleteSubnetsLoop, hfail]
  | s :: rest, j + 1, sj, st, hj, hok, hfail => by
    simp at hj
    have h0 := hok 0 s (Nat.succ_pos j) (by simp)
    simp at h0
    simp only [List.map_cons, deleteSubnetsLoop, Run.print_calls, h0]
    obtain ⟨st2, h2, hc⟩ := deleteSubnetsLoop_fail_at svc region e rest j sj
      ((st.print ("[" ++ region ++ "] Deleting subnet: " ++ s)).call (.DeleteSubnet s)) hj
      (by
        intro i s2 hi hs2
        have := hok (i + 1) s2 (Nat.succ_lt_succ hi) (by simpa using hs2)
        simpa using this)
      (by simpa using hfail)
    exact ⟨st2, h2, by simp [hc]⟩

/-- The loop, when every deletion succeeds: one request per subnet, in order. -/
theorem deleteSubnetsLoop_all_ok (svc : EC2) (region : String) :
    ∀ (subs : List String) (st : Run),
      (∀ i s, subs[i]? = some s →
        svc.DeleteSubnet (st.calls ++ (subs.take i).map Call.DeleteSubnet) s = none) →
      deleteSubnetsLoop svc region (subs.map some) st
        = .returned ⟨st.calls ++ subs.map Call.DeleteSubnet, st.out ++ subnetLines region subs⟩
  | [], st, _ => by simp [deleteSubnetsLoop, subnetLines]
  | s :: rest, st, hok => by
    have h0 := hok 0 s (by simp)
    simp at h0
    simp only [List.map_cons, deleteSubnetsLoop, Run.print_calls, h0]
    rw [deleteSubnetsLoop_all_ok svc region rest]
    · simp [subnetLines]
    · intro i s2 hs2
      have := hok (i + 1) s2 (by simpa using hs2)
      simpa using this

/-- The requests the loop of `deleteSubnets` adds are subnet deletions. -/
theorem deleteSubnetsLoop_shape (svc : EC2) (region : String) :
    ∀ (subnets : List (Option String)) (st : Run),
      ∃ tail, (deleteSubnetsLoop svc region subnets st).run.calls = st.calls ++ tail ∧
        ∀ c ∈ tail, c.isDeleteSubnet = true
  | [], st => ⟨[], by simp [deleteSubnetsLoop]⟩
  | none :: _, st => ⟨[], by simp [deleteSubnetsLoop]⟩
  | some s :: rest, st => by
    simp only [deleteSubnetsLoop, Run.print_calls]
    cases hd : svc.DeleteSubnet st.calls s with
    | some e => exact ⟨[.DeleteSubnet s], by simp [Call.isDeleteSubnet]⟩
    | none =>
      obtain ⟨tail, ht, hall⟩ := deleteSubnetsLoop_shape svc region rest
        ((st.print ("[" ++ region ++ "] Deleting subnet: " ++ s)).call (.DeleteSubnet s))
      refine ⟨.DeleteSubnet s :: tail, by simp [ht], ?_⟩
      intro c hc
      rcases List.mem_cons.mp hc with rfl | hc
      · rfl
      · exact hall c hc

/-- The loop of `deleteSubnets` returns when every listed subnet has its
identifier. -/
theorem deleteSubnetsLoop_returns (svc : EC2) (region : String) :
    ∀ (subnets : List (Option String)) (st : Run), none ∉ subnets →
      ∃ st2, deleteSubnetsLoop svc region subnets st = .returned st2
  | [], st, _ => ⟨st, rfl⟩
  | none :: _, st, h => absurd (List.mem_cons_self _ _) h
  | some s :: rest, st, h => by
    simp only [deleteSubnetsLoop, Run.print_calls]
    cases svc.DeleteSubnet st.calls s with
    | some e => exact ⟨_, rfl⟩
    | none =>
      exact deleteSubnetsLoop_returns svc region rest _
        (fun hmem => h (List.mem_cons_of_mem _ hmem))

/-- The subnet loop depends on the client through its answers only. -/
theorem deleteSubnetsLoop_congr (a b : EC2) (h : SameAnswers a b) (region : String) :
    ∀ (subnets : List (Option String)) (st : Run),
      deleteSubnetsLoop a region subnets st = deleteSubnetsLoop b region subnets st
  | [], _ => rfl
  | none :: _, _ => rfl
  | some s :: rest, st => by
    simp only [deleteSubnetsLoop, h.2.2.2.2.2.1, deleteSubnetsLoop_congr a b h region rest]

/-- The run of `deleteSubnets` when the deletion of the listed subnet at
position `j` (from 0) fails after the earlier ones succeeded. -/
theorem deleteSubnets_fail_at (svc : EC2) (region vpcID : String) (st : Run)
    (subs : List String) (j : Nat) (sj : String) (e : GoError)
    (hq : svc.DescribeSubnets st.calls vpcID = (some ⟨subs.map some⟩, none))
    (hj : subs[j]? = some sj)
    (hok : ∀ i s, i < j → subs[i]? = some s →
      svc.DeleteSubnet
        (st.calls ++ .DescribeSubnets vpcID :: (subs.take i).map Call.DeleteSubnet) s = none)
    (hfail : svc.DeleteSubnet
        (st.calls ++ .DescribeSubnets vpcID :: (subs.take j).map Call.DeleteSubnet) sj
      = some e) :
    ∃ st2, deleteSubnets svc region vpcID st = .returned st2 ∧
      st2.calls = st.calls ++ .DescribeSubnets vpcID :: (subs.take (j + 1)).map Call.DeleteSubnet := by
  obtain ⟨st2, h2, hc⟩ := deleteSubnetsLoop_fail_at svc region e subs j sj
    (st.call (.DescribeSubnets vpcID)) hj
    (by
      intro i s hi hs
      simpa using hok i s hi hs)
    (by simpa using hfail)
  refine ⟨st2, ?_, by simpa using hc⟩
  cases subs with
  | nil => simp at hj
  | cons s rest =>
    simp only [List.map_cons] at hq h2
    simp [deleteSubnets, hq, h2]

/-- The requests `deleteSubnets` adds: the subnet query, then only subnet
deletions. -/
theorem deleteSubnets_shape (svc : EC2) (region v : String) (st : Run) :
    ∃ tail, (deleteSubnets svc region v st).run.calls
        = st.calls ++ .DescribeSubnets v :: tail ∧
      ∀ c ∈ tail, c.isDeleteSubnet = true := by
  unfold deleteSubnets
  rcases hq : svc.DescribeSubnets st.calls v with ⟨result, err⟩
  cases err with
  | some e => exact ⟨[], by simp⟩
  | none =>
    rcases result with _ | ⟨_ | ⟨subnet, rest⟩⟩
    · exact ⟨[], by simp⟩
    · exact ⟨[], by simp⟩
    · obtain ⟨tail, ht, hall⟩ := deleteSubnetsLoop_shape svc region (subnet :: rest)
        (st.call (.DescribeSubnets v))
      exact ⟨tail, by simp [ht], hall⟩

/-- Function `deleteSubnets` returns when every listed subnet has its identifier. -/
theorem deleteSubnets_returns (svc : EC2) (region v : String) (st : Run)
    (hs : ∀ out, svc.DescribeSubnets st.calls v = (some out, none) → none ∉ out.Subnets) :
    ∃ st2, deleteSubnets svc region v st = .returned st2 := by
  unfold deleteSubnets
  rcases hq : svc.DescribeSubnets st.calls v with ⟨result, err⟩
  cases err with
  | some e => exact ⟨_, rfl⟩
  | none =>
    rcases result with _ | ⟨_ | ⟨subnet, rest⟩⟩
    · exact ⟨_, rfl⟩
    · exact ⟨_, rfl⟩
    · exact deleteSubnetsLoop_returns svc region (subnet :: rest) _ (hs ⟨subnet :: rest⟩ hq)

/-- The subnet step depends on the client through its answers only. -/
theorem deleteSubnets_congr (a b : EC2) (h : SameAnswers a b) (region v : String) (st : Run) :
    deleteSubnets a region v st = deleteSubnets b region v st := by
  simp only [deleteSubnets, h.2.2.2.2.1, deleteSubnetsLoop_congr a b h]

/-- Function `deleteVpc` always sends its one request and returns. -/
theorem deleteVpc_returns (svc : EC2) (region v : String) (st : Run) :
    ∃ st2, deleteVpc svc region v st = .returned st2 ∧ st2.calls = st.calls ++ [.DeleteVpc v] := by
  simp only [deleteVpc, Run.print_calls]
  cases svc.DeleteVpc st.calls v with
  | some e => exact ⟨_, rfl, by simp⟩
  | none => exact ⟨_, rfl, by simp⟩

/-- The VPC deletion depends on the client through its answers only. -/
theorem deleteVpc_congr (a b : EC2) (h : SameAnswers a b) (region v : String) (st : Run) :
    deleteVpc a region v st = deleteVpc b region v st := by
  simp only [deleteVpc, h.2.2.2.2.2.2]

/-! ## The worker of a region -/

/-- The worker that found the default VPC `v` runs the three steps for `v` in
turn. -/
theorem deleteDefaultVpc_found (sess : Session) (region v : String)
    (restV : List (Option String))
    (hvpc : (sess region).DescribeVpcs [] = (some ⟨some v :: restV⟩, none)) :
    deleteDefaultVpc sess region =
      (deleteInternetGateway (sess region) region v (foundVpc region v)).andThen fun st =>
      (deleteSubnets (sess region) region v st).andThen fun st =>
      deleteVpc (sess region) region v st := by
  simp [deleteDefaultVpc, ec2New, hvpc, foundVpc, Run.start, Run.call, Run.print]

/-- A worker whose VPC query fails or finds nothing sends that one request. -/
theorem deleteDefaultVpc_nothing_found (sess : Session) (region : String)
    (h : ((sess region).DescribeVpcs []).2.isSome = true ∨
      (((sess region).DescribeVpcs []).2 = none ∧
        (((sess region).DescribeVpcs []).1 = none ∨
          ((sess region).DescribeVpcs []).1 = some ⟨[]⟩))) :
    (deleteDefaultVpc sess region).isPanicked = false ∧
      (deleteDefaultVpc sess region).run.calls = [.DescribeVpcs] := by
  rcases hq : (sess region).DescribeVpcs [] with ⟨result, err⟩
  rw [hq] at h
  simp only at h
  rcases h with h | ⟨h1, h2 | h2⟩
  · obtain ⟨e, rfl⟩ := Option.isSome_iff_exists.mp h
    simp [deleteDefaultVpc, ec2New, hq, Exec.isPanicked]
  · subst h1; subst h2
    simp [deleteDefaultVpc, ec2New, hq, Exec.isPanicked]
  · subst h1; subst h2
    simp [deleteDefaultVpc, ec2New, hq, Exec.isPanicked]

/-- A worker whose first listed VPC has no identifier panics after the query. -/
theorem deleteDefaultVpc_nil_id (sess : Session) (region : String)
    (restV : List (Option String))
    (hq : (sess region).DescribeVpcs [] = (some ⟨none :: restV⟩, none)) :
    (deleteDefaultVpc sess region).run.calls = [.DescribeVpcs] := by
  simp [deleteDefaultVpc, ec2New, hq]

/-- The requests of a worker that found the default VPC `v`: the VPC query,
the gateway query with detach and gateway deletion requests, then, unless the
gateway step panicked, the subnet query with subnet deletions, then, unless
the subnet step panicked, the deletion of `v`. -/
theorem deleteDefaultVpc_shape (sess : Session) (region v : String)
    (restV : List (Option String))
    (hvpc : (sess region).DescribeVpcs [] = (some ⟨some v :: restV⟩, none)) :
    ∃ gw, (∀ c ∈ gw, c.isDetach = true ∨ c.isDeleteGateway = true) ∧
      ((deleteDefaultVpc sess region).run.calls
          = .DescribeVpcs :: .DescribeInternetGateways v :: gw ∨
       ∃ sn, (∀ c ∈ sn, c.isDeleteSubnet = true) ∧
        ((deleteDefaultVpc sess region).run.calls
            = .DescribeVpcs :: .DescribeInternetGateways v :: gw ++ .DescribeSubnets v :: sn ∨
         (deleteDefaultVpc sess region).run.calls
            = .DescribeVpcs :: .DescribeInternetGateways v :: gw ++ .DescribeSubnets v :: sn
              ++ [.DeleteVpc v])) := by
  rw [deleteDefaultVpc_found sess region v restV hvpc]
  obtain ⟨gw, hgw, hgwall⟩ := deleteInternetGateway_shape (sess region) region v (foundVpc region v)
  refine ⟨gw, hgwall, ?_⟩
  cases h1 : deleteInternetGateway (sess region) region v (foundVpc region v) with
  | panicked st1 =>
    left
    rw [h1] at hgw
    simpa [foundVpc] using hgw
  | returned st1 =>
    right
    rw [h1] at hgw
    simp only [Exec.run_returned] at hgw
    obtain ⟨sn, hsn, hsnall⟩ := deleteSubnets_shape (sess region) region v st1
    refine ⟨sn, hsnall, ?_⟩
    simp only [Exec.andThen_returned]
    cases h2 : deleteSubnets (sess region) region v st1 with
    | panicked st2 =>
      left
      rw [h2] at hsn
      simpa [foundVpc, hgw] using hsn
    | returned st2 =>
      right
      rw [h2] at hsn
      obtain ⟨st3, h3, hc3⟩ := deleteVpc_returns (sess region) region v st2
      simp only [Exec.andThen_returned, h3, Exec.run_returned, hc3]
      simp only [Exec.run_returned] at hsn
      simp [hsn, hgw, foundVpc]

/-- The rest of a worker's run once the gateway step has returned: the subnet
query for `v`, subnet deletions, and the deletion of `v` unless the subnet
step panicked. -/
theorem deleteDefaultVpc_after_gateway (sess : Session) (region v : String)
    (restV : List (Option String)) (st1 : Run)
    (hvpc : (sess region).DescribeVpcs [] = (some ⟨some v :: restV⟩, none))
    (h1 : deleteInternetGateway (sess region) region v (foundVpc region v) = .returned st1) :
    ∃ sn, (∀ c ∈ sn, c.isDeleteSubnet = true) ∧
      (((deleteDefaultVpc sess region).isPanicked = true ∧
        (deleteDefaultVpc sess region).run.calls = st1.calls ++ .DescribeSubnets v :: sn) ∨
       ((deleteDefaultVpc sess region).isPanicked = false ∧
        (deleteDefaultVpc sess region).run.calls
          = st1.calls ++ .DescribeSubnets v :: sn ++ [.DeleteVpc v])) := by
  obtain ⟨sn, hsn, hsnall⟩ := deleteSubnets_shape (sess region) region v st1
  refine ⟨sn, hsnall, ?_⟩
  rw [deleteDefaultVpc_found sess region v restV hvpc, h1, Exec.andThen_returned]
  cases h2 : deleteSubnets (sess region) region v st1 with
  | panicked st2 =>
    left
    rw [h2] at hsn
    exact ⟨rfl, by simpa using hsn⟩
  | returned st2 =>
    right
    rw [h2] at hsn
    obtain ⟨st3, h3, hc3⟩ := deleteVpc_returns (sess region) region v st2
    simp only [Exec.run_returned] at hsn
    rw [Exec.andThen_returned, h3]
    exact ⟨rfl, by simp [hc3, hsn]⟩

/-- The worker of a region depends on the session through the answers of that
region only. -/
theorem deleteDefaultVpc_congr (sess1 sess2 : Session) (region : String)
    (h : SameAnswers (sess1 region) (sess2 region)) :
    deleteDefaultVpc sess1 region = deleteDefaultVpc sess2 region := by
  simp only [deleteDefaultVpc, ec2New, h.1, deleteInternetGateway_congr _ _ h,
    deleteSubnets_congr _ _ h, deleteVpc_congr _ _ h]

/-! ## Region listing and dispatch -/

/-- What `getRegions` does when the query fails or gives no result: it prints
a line and returns `nil`. -/
theorem getRegions_reports (svc : EC2) (st : Run) :
    (∀ result e, svc.DescribeRegions st.calls = (result, some e) →
      getRegions svc st = (none, .returned ⟨st.calls ++ [.DescribeRegions], st.out ++ [e.text]⟩)) ∧
    (svc.DescribeRegions st.calls = (none, none) →
      getRegions svc st = (none, .returned
        ⟨st.calls ++ [.DescribeRegions], st.out ++ ["Error: no regions found"]⟩)) := by
  constructor
  · intro result e h
    simp only [getRegions, h]
    congr 2
    cases hst : handleError e (st.call .DescribeRegions) with
    | mk calls out =>
      have h1 := handleError_calls e (st.call .DescribeRegions)
      have h2 := handleError_out e (st.call .DescribeRegions)
      rw [hst] at h1 h2
      simp_all
  · intro h
    simp [getRegions, h, Run.call, Run.print]

/-- The dispatch loop starts one worker per region sent, in sending order, and
adds one to `wg` for each. -/
theorem dispatchLoop_eq : ∀ (regions : List String) (wg : Nat) (started : List String),
    dispatchLoop regions (wg, started) = (wg + regions.length, started ++ regions)
  | [], wg, started => by simp [dispatchLoop]
  | region :: rest, wg, started => by
    simp only [dispatchLoop, dispatchLoop_eq rest, List.length_cons, List.append_assoc,
      List.singleton_append, Prod.mk.injEq, and_true]
    omega

/-- The workers `main` starts once `getRegions` has returned. -/
theorem main_workers (sess : Session) (r : Option (List String)) (st : Run)
    (h : getRegions (ec2New sess "us-east-1") Run.start = (r, .returned st)) :
    (main sess).workers = (r.getD []).map fun region => (region, deleteDefaultVpc sess region) := by
  simp [main, h, dispatchLoop_eq]

/-- When `wg.Wait()` returns, every worker started has called `wg.Done()`. -/
theorem main_wg (sess : Session) : (main sess).wg = 0 := by
  rcases hq : getRegions (ec2New sess "us-east-1") Run.start with ⟨r, ex⟩
  cases ex with
  | panicked st => simp [main, hq]
  | returned st => simp [main, hq, dispatchLoop_eq]

/-- Every worker `main` starts runs the pipeline of its region. -/
theorem main_worker_run (sess : Session) :
    ∀ w ∈ (main sess).workers, w.2 = deleteDefaultVpc sess w.1 := by
  intro w hw
  rcases hq : getRegions (ec2New sess "us-east-1") Run.start with ⟨r, ex⟩
  cases ex with
  | panicked st => simp [main, hq] at hw
  | returned st =>
    rw [main_workers sess r st hq] at hw
    obtain ⟨region, -, rfl⟩ := List.mem_map.mp hw
    rfl

/-! ## The process under a schedule -/

/-- The loop of `getRegions` ends without a panic when every listed region has
its name. -/
theorem getRegionsLoop_isSome : ∀ (regions : List (Option String)) (output : List String),
    none ∉ regions → ∃ names, getRegionsLoop regions output = some names
  | [], output, _ => ⟨output, rfl⟩
  | none :: _, _, h => absurd (List.mem_cons_self _ _) h
  | some name :: rest, output, h => by
    simp only [getRegionsLoop]
    exact getRegionsLoop_isSome rest _ (fun hmem => h (List.mem_cons_of_mem _ hmem))

/-- Function `getRegions` returns when every listed region has its name. -/
theorem getRegions_returns (svc : EC2) (st : Run) (h : IdsListed svc) :
    (getRegions svc st).2.isPanicked = false := by
  unfold getRegions
  rcases hq : svc.DescribeRegions st.calls with ⟨result, err⟩
  cases err with
  | some e => rfl
  | none =>
    cases result with
    | none => rfl
    | some out =>
      obtain ⟨names, hn⟩ := getRegionsLoop_isSome out.Regions [] (h.1 _ out hq)
      simp [hn, Exec.isPanicked]

/-- The worker of a region returns when every resource listed in the region
has its identifier. -/
theorem deleteDefaultVpc_returns (sess : Session) (region : String)
    (h : IdsListed (sess region)) : (deleteDefaultVpc sess region).isPanicked = false := by
  rcases hq : (sess region).DescribeVpcs [] with ⟨result, err⟩
  cases err with
  | some e => exact (deleteDefaultVpc_nothing_found sess region (by simp [hq])).1
  | none =>
    rcases result with _ | ⟨_ | ⟨vpc, restV⟩⟩
    · exact (deleteDefaultVpc_nothing_found sess region (by simp [hq])).1
    · exact (deleteDefaultVpc_nothing_found sess region (by simp [hq])).1
    · cases vpc with
      | none => exact absurd rfl (h.2.1 [] ⟨none :: restV⟩ restV hq)
      | some v =>
        obtain ⟨st1, h1⟩ := deleteInternetGateway_returns (sess region) region v
          (foundVpc region v) (h.2.2.1 _ v)
        obtain ⟨st2, h2⟩ := deleteSubnets_returns (sess region) region v st1 (h.2.2.2 _ v)
        obtain ⟨st3, h3, -⟩ := deleteVpc_returns (sess region) region v st2
        rw [deleteDefaultVpc_found sess region v restV hq, h1, Exec.andThen_returned, h2,
          Exec.andThen_returned, h3]
        rfl

/-- When no panic ends the process, every worker has made the whole run of
its region's pipeline. -/
theorem runMain_observed_of_not_crashed (sess : Session) (sched : Schedule)
    (h : (runMain sess sched).crashed = false) :
    ∀ region r, (region, r) ∈ (runMain sess sched).observed →
      r = (deleteDefaultVpc sess region).run := by
  intro region r hr
  by_cases hc : ((main sess).run.isPanicked ||
      (main sess).workers.any (fun w => w.2.isPanicked)) = true
  · simp [runMain, hc] at h
  · simp only [runMain, hc] at hr
    obtain ⟨w, hw, heq⟩ := List.mem_map.mp hr
    have hrun := main_worker_run sess w hw
    simp only [Prod.mk.injEq] at heq
    rw [← heq.1, ← heq.2, hrun]

/-- The process is not ended by a panic when every resource listed in every
region has its identifier, whatever requests fail. -/
theorem runMain_not_crashed_of_ids (sess : Session) (sched : Schedule)
    (h : ∀ region, IdsListed (sess region)) : (runMain sess sched).crashed = false := by
  have hmain : (main sess).run.isPanicked = false := by
    have hg := getRegions_returns (ec2New sess "us-east-1") Run.start (h _)
    rcases hq : getRegions (ec2New sess "us-east-1") Run.start with ⟨r, ex⟩
    cases ex with
    | panicked st => simp [hq, Exec.isPanicked] at hg
    | returned st => simp [main, hq, Exec.isPanicked]
  have hworkers : (main sess).workers.any (fun w => w.2.isPanicked) = false := by
    rw [List.any_eq_false]
    intro w hw
    rw [main_worker_run sess w hw, deleteDefaultVpc_returns sess w.1 (h _)]
    simp
  simp [runMain, hmain, hworkers]

/-- The sample services `okSvc` and `allFailSvc` list every resource with its
identifier. -/
theorem failingASess_idsListed (region : String) : IdsListed (failingASess region) := by
  unfold failingASess
  split
  · refine ⟨?_, ?_, ?_, ?_⟩
    · intro h out heq
      simp [allFailSvc] at heq
    · intro h out rest heq
      simp only [allFailSvc, Prod.mk.injEq, Option.some.injEq, and_true] at heq
      subst heq
      simp
    · intro h v out rest heq
      simp only [allFailSvc, Prod.mk.injEq, Option.some.injEq, and_true] at heq
      subst heq
      simp
    · intro h v out heq
      simp only [allFailSvc, Prod.mk.injEq, Option.some.injEq, and_true] at heq
      subst heq
      simp
  · refine ⟨?_, ?_, ?_, ?_⟩
    · intro h out heq
      simp only [okSvc, Prod.mk.injEq, Option.some.injEq, and_true] at heq
      subst heq
      simp
    · intro h out rest heq
      simp only [okSvc, Prod.mk.injEq, Option.some.injEq, and_true] at heq
      subst heq
      simp
    · intro h v out rest heq
      simp only [okSvc, Prod.mk.injEq, Option.some.injEq, and_true] at heq
      subst heq
      simp
    · intro h v out heq
      simp only [okSvc, Prod.mk.injEq, Option.some.injEq, and_true] at heq
      subst heq
      simp

/-! ## C1: the full teardown -/

/-- C1. A region with default VPC `v`, gateway `g` and subnets `s1..sk`, every
request succeeding: the worker sends exactly the requests describe VPCs,
describe gateways of `v`, detach `g` from `v`, delete `g`, describe subnets of
`v`, delete `s1` .. delete `sk`, delete `v`, in this order; so one detach, one
gateway deletion, `k` subnet deletions and one VPC deletion. -/
theorem full_teardown_call_sequence (sess : Session) (region v g : String)
    (subs : List String) (restV restG : List (Option String))
    (hvpc : (sess region).DescribeVpcs [] = (some ⟨some v :: restV⟩, none))
    (higw : (sess region).DescribeInternetGateways [.DescribeVpcs] v
      = (some ⟨some g :: restG⟩, none))
    (hdet : (sess region).DetachInternetGateway
      [.DescribeVpcs, .DescribeInternetGateways v] g v = none)
    (hdel : (sess region).DeleteInternetGateway
      [.DescribeVpcs, .DescribeInternetGateways v, .DetachInternetGateway g v] g = none)
    (hsub : (sess region).DescribeSubnets
      [.DescribeVpcs, .DescribeInternetGateways v, .DetachInternetGateway g v,
        .DeleteInternetGateway g] v = (some ⟨subs.map some⟩, none))
    (hds : ∀ i s, subs[i]? = some s → (sess region).DeleteSubnet
      ([.DescribeVpcs, .DescribeInternetGateways v, .DetachInternetGateway g v,
        .DeleteInternetGateway g, .DescribeSubnets v] ++ (subs.take i).map Call.DeleteSubnet) s
      = none)
    (hdv : (sess region).DeleteVpc
      ([.DescribeVpcs, .DescribeInternetGateways v, .DetachInternetGateway g v,
        .DeleteInternetGateway g, .DescribeSubnets v] ++ subs.map Call.DeleteSubnet) v = none) :
    (deleteDefaultVpc sess region).isPanicked = false ∧
    (deleteDefaultVpc sess region).run.calls =
      [.DescribeVpcs, .DescribeInternetGateways v, .DetachInternetGateway g v,
        .DeleteInternetGateway g, .DescribeSubnets v]
        ++ subs.map Call.DeleteSubnet ++ [.DeleteVpc v] ∧
    (deleteDefaultVpc sess region).run.calls.countP Call.isDetach = 1 ∧
    (deleteDefaultVpc sess region).run.calls.countP Call.isDeleteGateway = 1 ∧
    (deleteDefaultVpc sess region).run.calls.countP Call.isDeleteSubnet = subs.length ∧
    (deleteDefaultVpc sess region).run.calls.countP Call.isDeleteVpc = 1 := by
  have hrun : deleteDefaultVpc sess region = .returned
      ⟨[.DescribeVpcs, .DescribeInternetGateways v, .DetachInternetGateway g v,
        .DeleteInternetGateway g, .DescribeSubnets v]
        ++ subs.map Call.DeleteSubnet ++ [.DeleteVpc v],
       ["[" ++ region ++ "] Found default VPC: " ++ v,
        "[" ++ region ++ "] Detaching and deleting internet gateway: " ++ g]
        ++ (match subs with
            | [] => ["[" ++ region ++ "] No subnets found for vpc " ++ v]
            | _ :: _ => subnetLines region subs)
        ++ ["[" ++ region ++ "] Deleting VPC: " ++ v]⟩ := by
    rw [deleteDefaultVpc_found sess region v restV hvpc]
    have hgw : deleteInternetGateway (sess region) region v (foundVpc region v) = .returned
        ⟨[.DescribeVpcs, .DescribeInternetGateways v, .DetachInternetGateway g v,
          .DeleteInternetGateway g],
         ["[" ++ region ++ "] Found default VPC: " ++ v,
          "[" ++ region ++ "] Detaching and deleting internet gateway: " ++ g]⟩ := by
      simp [deleteInternetGateway, foundVpc, higw, hdet, hdel, Run.call, Run.print]
    rw [hgw, Exec.andThen_returned]
    cases subs with
    | nil =>
      simp at hsub hdv
      simp [deleteSubnets, hsub, deleteVpc, hdv, Run.call, Run.print]
    | cons s rest =>
      have hloop := deleteSubnetsLoop_all_ok (sess region) region (s :: rest)
        ⟨[.DescribeVpcs, .DescribeInternetGateways v, .DetachInternetGateway g v,
          .DeleteInternetGateway g, .DescribeSubnets v],
         ["[" ++ region ++ "] Found default VPC: " ++ v,
          "[" ++ region ++ "] Detaching and deleting internet gateway: " ++ g]⟩ hds
      simp only [List.map_cons] at hsub hloop
      simp only [List.map_cons, List.cons_append, List.nil_append] at hdv
      simp [deleteSubnets, hsub, hloop, deleteVpc, hdv, Run.call, Run.print]
  rw [hrun]
  refine ⟨rfl, rfl, ?_, ?_, ?_, ?_⟩
  · simp [List.countP_cons, Call.isDetach, countP_map_deleteSubnet_other]
  · simp [List.countP_cons, Call.isDeleteGateway, countP_map_deleteSubnet_other]
  · simp [List.countP_cons, Call.isDeleteSubnet, countP_map_deleteSubnet]
  · simp [List.countP_cons, Call.isDeleteVpc, countP_map_deleteSubnet_other]

/-- Witness of C1: VPC `v1`, gateway `g1`, subnets `s1`, `s2`, all requests
succeeding. -/
theorem full_teardown_call_sequence_witness :
    (deleteDefaultVpc (fun _ => okSvc) "a").isPanicked = false ∧
    (deleteDefaultVpc (fun _ => okSvc) "a").run.calls =
      [.DescribeVpcs, .DescribeInternetGateways "v1", .DetachInternetGateway "g1" "v1",
        .DeleteInternetGateway "g1", .DescribeSubnets "v1"]
        ++ ["s1", "s2"].map Call.DeleteSubnet ++ [.DeleteVpc "v1"] ∧
    (deleteDefaultVpc (fun _ => okSvc) "a").run.calls.countP Call.isDetach = 1 ∧
    (deleteDefaultVpc (fun _ => okSvc) "a").run.calls.countP Call.isDeleteGateway = 1 ∧
    (deleteDefaultVpc (fun _ => okSvc) "a").run.calls.countP Call.isDeleteSubnet = 2 ∧
    (deleteDefaultVpc (fun _ => okSvc) "a").run.calls.countP Call.isDeleteVpc = 1 :=
  full_teardown_call_sequence (fun _ => okSvc) "a" "v1" "g1" ["s1", "s2"] [] []
    rfl rfl rfl rfl rfl (fun _ _ _ => rfl) rfl

/-! ## C2: ordering of the VPC deletion -/

/-- C2, as stated, fails: on `subnetFailSvc` the gateway step completes, the
second of three subnet deletions fails, and the VPC deletion is requested all
the same. -/
theorem vpc_deleted_after_failed_subnet_deletion :
    (subnetFailSvc.DeleteSubnet
      [.DescribeVpcs, .DescribeInternetGateways "v1", .DetachInternetGateway "g1" "v1",
        .DeleteInternetGateway "g1", .DescribeSubnets "v1", .DeleteSubnet "s1"] "s2").isSome
      = true ∧
    (deleteDefaultVpc (fun _ => subnetFailSvc) "a").run.calls =
      [.DescribeVpcs, .DescribeInternetGateways "v1", .DetachInternetGateway "g1" "v1",
        .DeleteInternetGateway "g1", .DescribeSubnets "v1", .DeleteSubnet "s1",
        .DeleteSubnet "s2", .DeleteVpc "v1"] ∧
    Call.DeleteVpc "v1" ∈ (deleteDefaultVpc (fun _ => subnetFailSvc) "a").run.calls := by
  decide

/-- C2 (amended). A VPC deletion is requested only after the gateway step and
the subnet step have both returned, whether they completed or stopped at their
first failing request, and it is then the next request; in particular, if the
`j`-th of `k` subnet deletions fails, the later subnets are not attempted and
the VPC deletion is requested right after the failed deletion. -/
theorem vpc_deletion_follows_both_steps (sess : Session) (region : String) :
    (∀ w, Call.DeleteVpc w ∈ (deleteDefaultVpc sess region).run.calls →
      ∃ st1 st2,
        deleteInternetGateway (sess region) region w (foundVpc region w) = .returned st1 ∧
        deleteSubnets (sess region) region w st1 = .returned st2 ∧
        (deleteDefaultVpc sess region).run.calls = st2.calls ++ [.DeleteVpc w]) ∧
    (∀ (v : String) (restV : List (Option String)) (st1 : Run) (subs : List String) (j : Nat),
      (sess region).DescribeVpcs [] = (some ⟨some v :: restV⟩, none) →
      deleteInternetGateway (sess region) region v (foundVpc region v) = .returned st1 →
      (sess region).DescribeSubnets st1.calls v = (some ⟨subs.map some⟩, none) →
      1 ≤ j → j ≤ subs.length →
      (∀ i s, i + 1 < j → subs[i]? = some s →
        (sess region).DeleteSubnet
          (st1.calls ++ .DescribeSubnets v :: (subs.take i).map Call.DeleteSubnet) s = none) →
      (∀ s, subs[j - 1]? = some s →
        ((sess region).DeleteSubnet
          (st1.calls ++ .DescribeSubnets v :: (subs.take (j - 1)).map Call.DeleteSubnet)
          s).isSome) →
      (deleteDefaultVpc sess region).run.calls =
        st1.calls ++ .DescribeSubnets v :: (subs.take j).map Call.DeleteSubnet
          ++ [.DeleteVpc v]) := by
  constructor
  · intro w hw
    rcases hq : (sess region).DescribeVpcs [] with ⟨result, err⟩
    have hnot : (deleteDefaultVpc sess region).run.calls ≠ [.DescribeVpcs] := by
      intro h
      rw [h] at hw
      simp at hw
    cases err with
    | some e => exact absurd (deleteDefaultVpc_nothing_found sess region (by simp [hq])).2 hnot
    | none =>
      rcases result with _ | ⟨_ | ⟨vpc, restV⟩⟩
      · exact absurd (deleteDefaultVpc_nothing_found sess region (by simp [hq])).2 hnot
      · exact absurd (deleteDefaultVpc_nothing_found sess region (by simp [hq])).2 hnot
      · cases vpc with
        | none => exact absurd (deleteDefaultVpc_nil_id sess region restV hq) hnot
        | some v =>
          obtain ⟨gw, hgw, hgwall⟩ :=
            deleteInternetGateway_shape (sess region) region v (foundVpc region v)
          have hfound := deleteDefaultVpc_found sess region v restV hq
          have hgwno : Call.DeleteVpc w ∉ gw := fun hmem => by
            have := isDeleteVpc_false_of_gateway _ (hgwall _ hmem)
            simp [Call.isDeleteVpc] at this
          cases h1 : deleteInternetGateway (sess region) region v (foundVpc region v) with
          | panicked st1 =>
            rw [hfound, h1] at hw
            rw [h1] at hgw
            simp only [Exec.andThen_panicked, Exec.run_panicked] at hw hgw
            rw [hgw] at hw
            simp [foundVpc, hgwno] at hw
          | returned st1 =>
            rw [h1] at hgw
            simp only [Exec.run_returned] at hgw
            obtain ⟨sn, hsn, hsnall⟩ := deleteSubnets_shape (sess region) region v st1
            have hsnno : Call.DeleteVpc w ∉ sn := fun hmem => by
              have := isDeleteVpc_false_of_subnet _ (hsnall _ hmem)
              simp [Call.isDeleteVpc] at this
            cases h2 : deleteSubnets (sess region) region v st1 with
            | panicked st2 =>
              rw [hfound, h1, Exec.andThen_returned, h2] at hw
              rw [h2] at hsn
              simp only [Exec.andThen_panicked, Exec.run_panicked] at hw hsn
              rw [hsn, hgw] at hw
              simp [foundVpc, hgwno, hsnno] at hw
            | returned st2 =>
              obtain ⟨st3, h3, hc3⟩ := deleteVpc_returns (sess region) region v st2
              have hrun : deleteDefaultVpc sess region = .returned st3 := by
                rw [hfound, h1, Exec.andThen_returned, h2, Exec.andThen_returned, h3]
              rw [h2] at hsn
              simp only [Exec.run_returned] at hsn
              rw [hrun, Exec.run_returned, hc3, hsn, hgw] at hw
              have hwv : w = v := by
                simpa [foundVpc, hgwno, hsnno] using hw
              subst hwv
              exact ⟨st1, st2, h1, h2, by rw [hrun, Exec.run_returned, hc3]⟩
  · intro v restV st1 subs j hvpc h1 hq hj1 hjk hok hfail
    obtain ⟨j0, rfl⟩ : ∃ j0, j = j0 + 1 := ⟨j - 1, by omega⟩
    simp only [Nat.add_sub_cancel] at hfail
    have hlt : j0 < subs.length := by omega
    have hget : subs[j0]? = some subs[j0] := List.getElem?_eq_getElem hlt
    obtain ⟨e, he⟩ := Option.isSome_iff_exists.mp (hfail _ hget)
    obtain ⟨st2, h2, hc2⟩ := deleteSubnets_fail_at (sess region) region v st1 subs j0
      subs[j0] e hq hget (fun i s hi hs => hok i s (by omega) hs) he
    obtain ⟨st3, h3, hc3⟩ := deleteVpc_returns (sess region) region v st2
    rw [deleteDefaultVpc_found sess region v restV hvpc, h1, Exec.andThen_returned, h2,
      Exec.andThen_returned, h3, Exec.run_returned, hc3, hc2]

/-- Witness of the amended C2 on `subnetFailSvc`. -/
theorem vpc_deletion_follows_both_steps_witness :
    (∃ st1 st2,
        deleteInternetGateway subnetFailSvc "a" "v1" (foundVpc "a" "v1") = .returned st1 ∧
        deleteSubnets subnetFailSvc "a" "v1" st1 = .returned st2 ∧
        (deleteDefaultVpc (fun _ => subnetFailSvc) "a").run.calls
          = st2.calls ++ [.DeleteVpc "v1"]) ∧
    (deleteDefaultVpc (fun _ => subnetFailSvc) "a").run.calls =
      [.DescribeVpcs, .DescribeInternetGateways "v1", .DetachInternetGateway "g1" "v1",
        .DeleteInternetGateway "g1"]
        ++ .DescribeSubnets "v1" :: (["s1", "s2", "s3"].take 2).map Call.DeleteSubnet
        ++ [.DeleteVpc "v1"] :=
  ⟨(vpc_deletion_follows_both_steps (fun _ => subnetFailSvc) "a").1 "v1" (by decide),
   (vpc_deletion_follows_both_steps (fun _ => subnetFailSvc) "a").2 "v1" []
      ⟨[.DescribeVpcs, .DescribeInternetGateways "v1", .DetachInternetGateway "g1" "v1",
        .DeleteInternetGateway "g1"],
       ["[a] Found default VPC: v1", "[a] Detaching and deleting internet gateway: g1"]⟩
      ["s1", "s2", "s3"] 2 rfl (by decide) rfl (by decide) (by decide)
      (by
        intro i s hi hs
        have hi0 : i = 0 := by omega
        subst hi0
        simp at hs
        subst hs
        rfl)
      (by
        intro s hs
        simp at hs
        subst hs
        rfl)⟩

/-! ## C3: failures of the gateway step -/

/-- C3, as stated, fails: on `detachFailSvc` the detach request fails and the
worker still queries the subnets, deletes them and requests the deletion of
the VPC. -/
theorem pipeline_continues_after_failed_detach :
    (detachFailSvc.DetachInternetGateway
      [.DescribeVpcs, .DescribeInternetGateways "v1"] "g1" "v1").isSome = true ∧
    (deleteDefaultVpc (fun _ => detachFailSvc) "a").run.calls =
      [.DescribeVpcs, .DescribeInternetGateways "v1", .DetachInternetGateway "g1" "v1",
        .DescribeSubnets "v1", .DeleteSubnet "s1", .DeleteSubnet "s2", .DeleteVpc "v1"] := by
  decide

/-- C3 (amended). With a default VPC `v` and an attached gateway `g`: after a
failed detach no gateway deletion is requested; after a failed detach or a
failed gateway deletion only the gateway step ends, the next request of the
worker is the subnet query for `v`, followed only by subnet deletions and by
the deletion of `v`, which is the last request unless the subnet step
panics. -/
theorem gateway_failure_ends_gateway_step_only (sess : Session) (region v g : String)
    (restV restG : List (Option String))
    (hvpc : (sess region).DescribeVpcs [] = (some ⟨some v :: restV⟩, none))
    (higw : (sess region).DescribeInternetGateways [.DescribeVpcs] v
      = (some ⟨some g :: restG⟩, none)) :
    (((sess region).DetachInternetGateway
        [.DescribeVpcs, .DescribeInternetGateways v] g v).isSome = true →
      (∀ c ∈ (deleteDefaultVpc sess region).run.calls, c.isDeleteGateway = false) ∧
      ∃ sn, (∀ c ∈ sn, c.isDeleteSubnet = true) ∧
        (((deleteDefaultVpc sess region).isPanicked = true ∧
          (deleteDefaultVpc sess region).run.calls =
            [.DescribeVpcs, .DescribeInternetGateways v, .DetachInternetGateway g v]
              ++ .DescribeSubnets v :: sn) ∨
         ((deleteDefaultVpc sess region).isPanicked = false ∧
          (deleteDefaultVpc sess region).run.calls =
            [.DescribeVpcs, .DescribeInternetGateways v, .DetachInternetGateway g v]
              ++ .DescribeSubnets v :: sn ++ [.DeleteVpc v]))) ∧
    ((sess region).DetachInternetGateway
        [.DescribeVpcs, .DescribeInternetGateways v] g v = none →
      ((sess region).DeleteInternetGateway
        [.DescribeVpcs, .DescribeInternetGateways v, .DetachInternetGateway g v] g).isSome
        = true →
      ∃ sn, (∀ c ∈ sn, c.isDeleteSubnet = true) ∧
        (((deleteDefaultVpc sess region).isPanicked = true ∧
          (deleteDefaultVpc sess region).run.calls =
            [.DescribeVpcs, .DescribeInternetGateways v, .DetachInternetGateway g v,
              .DeleteInternetGateway g] ++ .DescribeSubnets v :: sn) ∨
         ((deleteDefaultVpc sess region).isPanicked = false ∧
          (deleteDefaultVpc sess region).run.calls =
            [.DescribeVpcs, .DescribeInternetGateways v, .DetachInternetGateway g v,
              .DeleteInternetGateway g] ++ .DescribeSubnets v :: sn ++ [.DeleteVpc v]))) := by
  constructor
  · intro hdet
    obtain ⟨e, he⟩ := Option.isSome_iff_exists.mp hdet
    have h1 : deleteInternetGateway (sess region) region v (foundVpc region v) = .returned
        (handleError e
          ⟨[.DescribeVpcs, .DescribeInternetGateways v, .DetachInternetGateway g v],
           ["[" ++ region ++ "] Found default VPC: " ++ v,
            "[" ++ region ++ "] Detaching and deleting internet gateway: " ++ g]⟩) := by
      simp [deleteInternetGateway, foundVpc, higw, he, Run.call, Run.print]
    obtain ⟨sn, hall, h⟩ := deleteDefaultVpc_after_gateway sess region v restV _ hvpc h1
    simp only [handleError_calls] at h
    refine ⟨?_, sn, hall, h⟩
    intro c hc
    rcases h with ⟨-, h⟩ | ⟨-, h⟩
    · rw [h] at hc
      simp only [List.mem_cons, List.cons_append, List.nil_append, List.mem_append,
        List.not_mem_nil, or_false] at hc
      rcases hc with rfl | rfl | rfl | rfl | hc
      · rfl
      · rfl
      · rfl
      · rfl
      · have := hall c hc
        cases c <;> simp_all [Call.isDeleteSubnet, Call.isDeleteGateway]
    · rw [h] at hc
      simp only [List.mem_cons, List.cons_append, List.nil_append, List.mem_append,
        List.not_mem_nil, or_false] at hc
      rcases hc with rfl | rfl | rfl | rfl | hc | rfl
      · rfl
      · rfl
      · rfl
      · rfl
      · have := hall c hc
        cases c <;> simp_all [Call.isDeleteSubnet, Call.isDeleteGateway]
      · rfl
  · intro hdet hdel
    obtain ⟨e, he⟩ := Option.isSome_iff_exists.mp hdel
    have h1 : deleteInternetGateway (sess region) region v (foundVpc region v) = .returned
        (handleError e
          ⟨[.DescribeVpcs, .DescribeInternetGateways v, .DetachInternetGateway g v,
            .DeleteInternetGateway g],
           ["[" ++ region ++ "] Found default VPC: " ++ v,
            "[" ++ region ++ "] Detaching and deleting internet gateway: " ++ g]⟩) := by
      simp [deleteInternetGateway, foundVpc, higw, hdet, he, Run.call, Run.print]
    obtain ⟨sn, hall, h⟩ := deleteDefaultVpc_after_gateway sess region v restV _ hvpc h1
    simp only [handleError_calls] at h
    exact ⟨sn, hall, h⟩

/-- Witness of the amended C3: a failing detach, and a failing gateway
deletion. -/
theorem gateway_failure_ends_gateway_step_only_witness :
    ((∀ c ∈ (deleteDefaultVpc (fun _ => detachFailSvc) "a").run.calls,
        c.isDeleteGateway = false) ∧
      ∃ sn, (∀ c ∈ sn, c.isDeleteSubnet = true) ∧
        (((deleteDefaultVpc (fun _ => detachFailSvc) "a").isPanicked = true ∧
          (deleteDefaultVpc (fun _ => detachFailSvc) "a").run.calls =
            [.DescribeVpcs, .DescribeInternetGateways "v1", .DetachInternetGateway "g1" "v1"]
              ++ .DescribeSubnets "v1" :: sn) ∨
         ((deleteDefaultVpc (fun _ => detachFailSvc) "a").isPanicked = false ∧
          (deleteDefaultVpc (fun _ => detachFailSvc) "a").run.calls =
            [.DescribeVpcs, .DescribeInternetGateways "v1", .DetachInternetGateway "g1" "v1"]
              ++ .DescribeSubnets "v1" :: sn ++ [.DeleteVpc "v1"]))) ∧
    ∃ sn, (∀ c ∈ sn, c.isDeleteSubnet = true) ∧
      (((deleteDefaultVpc (fun _ => deleteGatewayFailSvc) "a").isPanicked = true ∧
        (deleteDefaultVpc (fun _ => deleteGatewayFailSvc) "a").run.calls =
          [.DescribeVpcs, .DescribeInternetGateways "v1", .DetachInternetGateway "g1" "v1",
            .DeleteInternetGateway "g1"] ++ .DescribeSubnets "v1" :: sn) ∨
       ((deleteDefaultVpc (fun _ => deleteGatewayFailSvc) "a").isPanicked = false ∧
        (deleteDefaultVpc (fun _ => deleteGatewayFailSvc) "a").run.calls =
          [.DescribeVpcs, .DescribeInternetGateways "v1", .DetachInternetGateway "g1" "v1",
            .DeleteInternetGateway "g1"] ++ .DescribeSubnets "v1" :: sn ++ [.DeleteVpc "v1"])) :=
  ⟨(gateway_failure_ends_gateway_step_only (fun _ => detachFailSvc) "a" "v1" "g1" [] []
      rfl rfl).1 rfl,
   (gateway_failure_ends_gateway_step_only (fun _ => deleteGatewayFailSvc) "a" "v1" "g1" [] []
      rfl rfl).2 rfl rfl⟩

/-! ## C4: the first failed subnet deletion ends the subnet step -/

/-- C4. When the subnet query lists `s1..sk` and the deletion of the `j`-th
fails after the first `j-1` succeeded, `deleteSubnets` sends exactly `j`
subnet deletions, for `s1..sj` in listed order, and none for the later ones. -/
theorem subnet_deletion_fail_fast (svc : EC2) (region vpcID : String) (st : Run)
    (subs : List String) (j : Nat)
    (hq : svc.DescribeSubnets st.calls vpcID = (some ⟨subs.map some⟩, none))
    (h1 : 1 ≤ j) (hk : j ≤ subs.length)
    (hok : ∀ i s, i + 1 < j → subs[i]? = some s →
      svc.DeleteSubnet
        (st.calls ++ .DescribeSubnets vpcID :: (subs.take i).map Call.DeleteSubnet) s = none)
    (hfail : ∀ s, subs[j - 1]? = some s →
      (svc.DeleteSubnet
        (st.calls ++ .DescribeSubnets vpcID :: (subs.take (j - 1)).map Call.DeleteSubnet)
        s).isSome) :
    (deleteSubnets svc region vpcID st).isPanicked = false ∧
    (deleteSubnets svc region vpcID st).run.calls
      = st.calls ++ .DescribeSubnets vpcID :: (subs.take j).map Call.DeleteSubnet ∧
    (deleteSubnets svc region vpcID st).run.calls.countP Call.isDeleteSubnet
      = st.calls.countP Call.isDeleteSubnet + j := by
  obtain ⟨j0, rfl⟩ : ∃ j0, j = j0 + 1 := ⟨j - 1, by omega⟩
  simp only [Nat.add_sub_cancel] at hfail
  have hlt : j0 < subs.length := by omega
  have hget : subs[j0]? = some subs[j0] := List.getElem?_eq_getElem hlt
  obtain ⟨e, he⟩ := Option.isSome_iff_exists.mp (hfail _ hget)
  obtain ⟨st2, hrun, hc⟩ := deleteSubnets_fail_at svc region vpcID st subs j0 subs[j0] e hq
    hget (fun i s hi hs => hok i s (by omega) hs) he
  rw [hrun]
  refine ⟨rfl, hc, ?_⟩
  have hlen : (subs.take (j0 + 1)).length = j0 + 1 := by
    rw [List.length_take]
    omega
  simp only [Exec.run_returned, hc, List.countP_append, List.countP_cons, List.countP_nil,
    Call.isDeleteSubnet, countP_map_deleteSubnet, hlen]
  simp

/-- Witness of C4: of three listed subnets the deletion of the second fails. -/
theorem subnet_deletion_fail_fast_witness :
    (deleteSubnets subnetFailSvc "a" "v1" Run.start).isPanicked = false ∧
    (deleteSubnets subnetFailSvc "a" "v1" Run.start).run.calls
      = [] ++ .DescribeSubnets "v1" :: (["s1", "s2", "s3"].take 2).map Call.DeleteSubnet ∧
    (deleteSubnets subnetFailSvc "a" "v1" Run.start).run.calls.countP Call.isDeleteSubnet
      = ([] : List Call).countP Call.isDeleteSubnet + 2 :=
  subnet_deletion_fail_fast subnetFailSvc "a" "v1" Run.start ["s1", "s2", "s3"] 2 rfl
    (by decide) (by decide)
    (by
      intro i s hi hs
      have hi0 : i = 0 := by omega
      subst hi0
      simp at hs
      subst hs
      rfl)
    (by
      intro s hs
      simp at hs
      subst hs
      rfl)

/-! ## C5: no default VPC -/

/-- C5. If the default-VPC query fails, or succeeds with no VPC, the worker
sends exactly one request, that query, and nothing else; the worker sends a
later request only if the query succeeded and listed at least one VPC. -/
theorem no_default_vpc_single_query (sess : Session) (region : String) :
    ((((sess region).DescribeVpcs []).2.isSome = true ∨
      (((sess region).DescribeVpcs []).2 = none ∧
        (((sess region).DescribeVpcs []).1 = none ∨
          ((sess region).DescribeVpcs []).1 = some ⟨[]⟩))) →
      (deleteDefaultVpc sess region).isPanicked = false ∧
      (deleteDefaultVpc sess region).run.calls = [.DescribeVpcs]) ∧
    (1 < (deleteDefaultVpc sess region).run.calls.length →
      ((sess region).DescribeVpcs []).2 = none ∧
      ∃ vpc rest, ((sess region).DescribeVpcs []).1 = some ⟨vpc :: rest⟩) ∧
    (deleteDefaultVpc sess region).run.calls.head? = some .DescribeVpcs := by
  refine ⟨deleteDefaultVpc_nothing_found sess region, ?_, ?_⟩
  · intro hlen
    rcases hq : (sess region).DescribeVpcs [] with ⟨result, err⟩
    cases err with
    | some e =>
      have := (deleteDefaultVpc_nothing_found sess region (by simp [hq])).2
      simp [this] at hlen
    | none =>
      rcases result with _ | ⟨_ | ⟨vpc, rest⟩⟩
      · have := (deleteDefaultVpc_nothing_found sess region (by simp [hq])).2
        simp [this] at hlen
      · have := (deleteDefaultVpc_nothing_found sess region (by simp [hq])).2
        simp [this] at hlen
      · exact ⟨rfl, vpc, rest, rfl⟩
  · rcases hq : (sess region).DescribeVpcs [] with ⟨result, err⟩
    cases err with
    | some e => simp [(deleteDefaultVpc_nothing_found sess region (by simp [hq])).2]
    | none =>
      rcases result with _ | ⟨_ | ⟨vpc, rest⟩⟩
      · simp [(deleteDefaultVpc_nothing_found sess region (by simp [hq])).2]
      · simp [(deleteDefaultVpc_nothing_found sess region (by simp [hq])).2]
      · cases vpc with
        | none => simp [deleteDefaultVpc_nil_id sess region rest hq]
        | some v =>
          obtain ⟨gw, -, h | ⟨sn, -, h | h⟩⟩ := deleteDefaultVpc_shape sess region v rest hq
          all_goals simp [h]

/-- Witness of C5: a region without default VPC, and a region with one. -/
theorem no_default_vpc_single_query_witness :
    ((deleteDefaultVpc (fun _ => noVpcSvc) "b").isPanicked = false ∧
      (deleteDefaultVpc (fun _ => noVpcSvc) "b").run.calls = [.DescribeVpcs]) ∧
    (okSvc.DescribeVpcs []).2 = none ∧
      ∃ vpc rest, (okSvc.DescribeVpcs []).1 = some ⟨vpc :: rest⟩ :=
  ⟨(no_default_vpc_single_query (fun _ => noVpcSvc) "b").1 (Or.inr ⟨rfl, Or.inr rfl⟩),
   (no_default_vpc_single_query (fun _ => okSvc) "a").2.1 (by decide)⟩

/-! ## C6: no internet gateway -/

/-- C6. With a default VPC `v` and a gateway query that succeeds with no
gateway, no detach and no gateway deletion is ever requested, and the request
right after the gateway query is the subnet query for `v`. -/
theorem no_gateway_proceeds_to_subnets (sess : Session) (region v : String)
    (restV : List (Option String)) (r : Option DescribeInternetGatewaysOutput)
    (hvpc : (sess region).DescribeVpcs [] = (some ⟨some v :: restV⟩, none))
    (higw : (sess region).DescribeInternetGateways [.DescribeVpcs] v = (r, none))
    (hnone : r = none ∨ r = some ⟨[]⟩) :
    (∀ c ∈ (deleteDefaultVpc sess region).run.calls,
      c.isDetach = false ∧ c.isDeleteGateway = false) ∧
    ∃ tail, (deleteDefaultVpc sess region).run.calls
      = .DescribeVpcs :: .DescribeInternetGateways v :: .DescribeSubnets v :: tail := by
  have hgw : deleteInternetGateway (sess region) region v (foundVpc region v) = .returned
      ⟨[.DescribeVpcs, .DescribeInternetGateways v],
       ["[" ++ region ++ "] Found default VPC: " ++ v,
        "[" ++ region ++ "] No internet gateway found for vpc " ++ v]⟩ := by
    rcases hnone with rfl | rfl <;>
      simp [deleteInternetGateway, foundVpc, higw, Run.call, Run.print]
  have hshape : ∃ sn, (∀ c ∈ sn, c.isDeleteSubnet = true) ∧
      ((deleteDefaultVpc sess region).run.calls
          = .DescribeVpcs :: .DescribeInternetGateways v :: .DescribeSubnets v :: sn ∨
       (deleteDefaultVpc sess region).run.calls
          = .DescribeVpcs :: .DescribeInternetGateways v :: .DescribeSubnets v :: sn
            ++ [.DeleteVpc v]) := by
    rw [deleteDefaultVpc_found sess region v restV hvpc, hgw, Exec.andThen_returned]
    obtain ⟨sn, hsn, hall⟩ := deleteSubnets_shape (sess region) region v
      ⟨[.DescribeVpcs, .DescribeInternetGateways v],
       ["[" ++ region ++ "] Found default VPC: " ++ v,
        "[" ++ region ++ "] No internet gateway found for vpc " ++ v]⟩
    refine ⟨sn, hall, ?_⟩
    cases h2 : deleteSubnets (sess region) region v
      ⟨[.DescribeVpcs, .DescribeInternetGateways v],
       ["[" ++ region ++ "] Found default VPC: " ++ v,
        "[" ++ region ++ "] No internet gateway found for vpc " ++ v]⟩ with
    | panicked st2 =>
      left
      rw [h2] at hsn
      simpa using hsn
    | returned st2 =>
      right
      rw [h2] at hsn
      obtain ⟨st3, h3, hc3⟩ := deleteVpc_returns (sess region) region v st2
      simp only [Exec.run_returned] at hsn
      simp [h3, hc3, hsn]
  obtain ⟨sn, hall, h | h⟩ := hshape
  · refine ⟨?_, sn, h⟩
    intro c hc
    rw [h] at hc
    simp only [List.mem_cons] at hc
    rcases hc with rfl | rfl | rfl | hc
    · exact ⟨rfl, rfl⟩
    · exact ⟨rfl, rfl⟩
    · exact ⟨rfl, rfl⟩
    · have := hall c hc
      cases c <;> simp_all [Call.isDeleteSubnet, Call.isDetach, Call.isDeleteGateway]
  · refine ⟨?_, sn ++ [.DeleteVpc v], by simpa using h⟩
    intro c hc
    rw [h] at hc
    simp only [List.mem_cons, List.cons_append, List.mem_append, List.not_mem_nil,
      or_false] at hc
    rcases hc with rfl | rfl | rfl | hc | rfl
    · exact ⟨rfl, rfl⟩
    · exact ⟨rfl, rfl⟩
    · exact ⟨rfl, rfl⟩
    · have := hall c hc
      cases c <;> simp_all [Call.isDeleteSubnet, Call.isDetach, Call.isDeleteGateway]
    · exact ⟨rfl, rfl⟩

/-- Witness of C6: a default VPC without internet gateway. -/
theorem no_gateway_proceeds_to_subnets_witness :
    (∀ c ∈ (deleteDefaultVpc (fun _ => noGatewaySvc) "a").run.calls,
      c.isDetach = false ∧ c.isDeleteGateway = false) ∧
    ∃ tail, (deleteDefaultVpc (fun _ => noGatewaySvc) "a").run.calls
      = .DescribeVpcs :: .DescribeInternetGateways "v1" :: .DescribeSubnets "v1" :: tail :=
  no_gateway_proceeds_to_subnets (fun _ => noGatewaySvc) "a" "v1" [] (some ⟨[]⟩)
    rfl rfl (Or.inr rfl)

/-! ## C7: isolation of regions -/

/-- C7, as stated, fails: the sessions `okSess` and `nilIdASess` answer region
`b` alike and differ in region `a` only, which in `nilIdASess` lists a default
VPC without identifier.  In `okSess` the worker of `b` makes its whole run of
eight requests; in `nilIdASess`, under the same schedule, the worker of `a`
panics after its query and the process ends when the worker of `b` has sent
its first request only. -/
theorem panic_in_one_region_cuts_another :
    "a" ≠ "b" ∧ SameAnswers (okSess "b") (nilIdASess "b") ∧
    (deleteDefaultVpc nilIdASess "a").isPanicked = true ∧
    (runMain okSess firstRequestSent).observed.map (fun w => (w.1, w.2.calls)) =
      [("a", [.DescribeVpcs, .DescribeInternetGateways "v1",
          .DetachInternetGateway "g1" "v1", .DeleteInternetGateway "g1",
          .DescribeSubnets "v1", .DeleteSubnet "s1", .DeleteSubnet "s2", .DeleteVpc "v1"]),
       ("b", [.DescribeVpcs, .DescribeInternetGateways "v1",
          .DetachInternetGateway "g1" "v1", .DeleteInternetGateway "g1",
          .DescribeSubnets "v1", .DeleteSubnet "s1", .DeleteSubnet "s2", .DeleteVpc "v1"])] ∧
    (runMain nilIdASess firstRequestSent).crashed = true ∧
    (runMain nilIdASess firstRequestSent).observed.map (fun w => (w.1, w.2.calls)) =
      [("a", [.DescribeVpcs]), ("b", [.DescribeVpcs])] :=
  ⟨by decide,
   ⟨fun _ => rfl, fun _ _ => rfl, fun _ _ _ => rfl, fun _ _ => rfl, fun _ _ => rfl,
     fun _ _ => rfl, fun _ _ => rfl⟩,
   by decide, by decide, by decide, by decide⟩

/-- C7 (amended). Isolation short of a panic: when two sessions answer the
requests of region `B` alike, then whatever region `A` answers, failures at
any step included, the run the worker of `B` makes (requests and lines) is the
same in both, and under every schedule each worker started for `B` gets this
whole run done in both processes, as long as no panic ends the process; no
failed request ends it, only the read of a listed resource that has no
identifier. -/
theorem region_isolation_unless_panic (sess1 sess2 : Session) (A B : String) (hAB : A ≠ B)
    (hagree : SameAnswers (sess1 B) (sess2 B)) (sched1 sched2 : Schedule) :
    deleteDefaultVpc sess1 B = deleteDefaultVpc sess2 B ∧
    ((runMain sess1 sched1).crashed = false → (runMain sess2 sched2).crashed = false →
      ∀ r1 r2, (B, r1) ∈ (runMain sess1 sched1).observed →
        (B, r2) ∈ (runMain sess2 sched2).observed →
        r1 = r2 ∧ r1 = (deleteDefaultVpc sess1 B).run) ∧
    (∀ svcA : EC2, (runMain (Function.update sess1 A svcA) sched1).crashed = false →
      ∀ r, (B, r) ∈ (runMain (Function.update sess1 A svcA) sched1).observed →
        r = (deleteDefaultVpc sess1 B).run) ∧
    ((∀ region, IdsListed (sess1 region)) → (runMain sess1 sched1).crashed = false) := by
  have hB := deleteDefaultVpc_congr sess1 sess2 B hagree
  refine ⟨hB, ?_, ?_, runMain_not_crashed_of_ids sess1 sched1⟩
  · intro h1 h2 r1 r2 hr1 hr2
    have e1 := runMain_observed_of_not_crashed sess1 sched1 h1 B r1 hr1
    have e2 := runMain_observed_of_not_crashed sess2 sched2 h2 B r2 hr2
    exact ⟨by rw [e1, e2, hB], e1⟩
  · intro svcA hc r hr
    have e := runMain_observed_of_not_crashed _ sched1 hc B r hr
    have hne : B ≠ A := fun h => hAB h.symm
    rw [e]
    simp [deleteDefaultVpc, ec2New, Function.update_noteq hne]

/-- Witness of the amended C7: region `b` answers alike in `failingASess`, in
which every detach and deletion of region `a` fails, and in `okSess`; no panic
ends either process. -/
theorem region_isolation_unless_panic_witness :
    deleteDefaultVpc failingASess "b" = deleteDefaultVpc okSess "b" ∧
    ((deleteDefaultVpc failingASess "b").run = (deleteDefaultVpc okSess "b").run ∧
      (deleteDefaultVpc failingASess "b").run = (deleteDefaultVpc failingASess "b").run) ∧
    (deleteDefaultVpc failingASess "b").run = (deleteDefaultVpc failingASess "b").run ∧
    (runMain failingASess firstRequestSent).crashed = false :=
  ⟨(region_isolation_unless_panic failingASess okSess "a" "b" (by decide)
      ⟨fun _ => rfl, fun _ _ => rfl, fun _ _ _ => rfl, fun _ _ => rfl, fun _ _ => rfl,
        fun _ _ => rfl, fun _ _ => rfl⟩ firstRequestSent firstRequestSent).1,
   (region_isolation_unless_panic failingASess okSess "a" "b" (by decide)
      ⟨fun _ => rfl, fun _ _ => rfl, fun _ _ _ => rfl, fun _ _ => rfl, fun _ _ => rfl,
        fun _ _ => rfl, fun _ _ => rfl⟩ firstRequestSent firstRequestSent).2.1
      (by decide) (by decide) _ _ (by decide) (by decide),
   (region_isolation_unless_panic failingASess okSess "a" "b" (by decide)
      ⟨fun _ => rfl, fun _ _ => rfl, fun _ _ _ => rfl, fun _ _ => rfl, fun _ _ => rfl,
        fun _ _ => rfl, fun _ _ => rfl⟩ firstRequestSent firstRequestSent).2.2.1
      noVpcSvc (by decide) _ (by decide),
   (region_isolation_unless_panic failingASess okSess "a" "b" (by decide)
      ⟨fun _ => rfl, fun _ _ => rfl, fun _ _ _ => rfl, fun _ _ => rfl, fun _ _ => rfl,
        fun _ _ => rfl, fun _ _ => rfl⟩ firstRequestSent firstRequestSent).2.2.2
      failingASess_idsListed⟩

/-! ## C8: one worker per region -/

/-- C8. For the list of `N` regions that `getRegions` returns, `main` starts
exactly `N` workers, the `i`-th for the `i`-th region of the list, each running
the pipeline of its region; with no region, no worker is started. -/
theorem one_worker_per_region (sess : Session) (r : Option (List String)) (st : Run)
    (h : getRegions (ec2New sess "us-east-1") Run.start = (r, .returned st)) :
    dispatchLoop (r.getD []) (0, []) = ((r.getD []).length, r.getD []) ∧
    (main sess).workers.map Prod.fst = r.getD [] ∧
    (main sess).workers.length = (r.getD []).length ∧
    (∀ w ∈ (main sess).workers, w.2 = deleteDefaultVpc sess w.1) ∧
    ((r.getD []).length = 0 → (main sess).workers = []) := by
  have hw := main_workers sess r st h
  refine ⟨by simp [dispatchLoop_eq], ?_, ?_, main_worker_run sess, ?_⟩
  · rw [hw, List.map_map]
    exact List.map_id _
  · rw [hw, List.length_map]
  · intro h0
    rw [hw, List.length_eq_zero.mp h0]
    rfl

/-- Witness of C8: the regions `a` and `b`. -/
theorem one_worker_per_region_witness :
    dispatchLoop ["a", "b"] (0, []) = (2, ["a", "b"]) ∧
    (main (fun _ => okSvc)).workers.map Prod.fst = ["a", "b"] ∧
    (main (fun _ => okSvc)).workers.length = 2 ∧
    (∀ w ∈ (main (fun _ => okSvc)).workers, w.2 = deleteDefaultVpc (fun _ => okSvc) w.1) ∧
    ((["a", "b"] : List String).length = 0 → (main (fun _ => okSvc)).workers = []) :=
  one_worker_per_region (fun _ => okSvc) (some ["a", "b"]) ⟨[.DescribeRegions], []⟩ rfl

/-! ## C9: the region query -/

/-- C9, at the input where the code departs from it: the region query succeeds
with an empty list; `getRegions` returns the empty list and prints nothing. -/
theorem getRegions_empty_list_prints_nothing :
    (emptyRegionsSvc.DescribeRegions []) = (some ⟨[]⟩, none) ∧
    getRegions emptyRegionsSvc Run.start = (some [], .returned ⟨[.DescribeRegions], []⟩) ∧
    (getRegions emptyRegionsSvc Run.start).2.run.out = [] := by
  decide

/-! ## C10: the VPC deletion is always requested -/

/-- C10. When the default-VPC query lists at least one VPC, then whatever the
gateway query, the detach, the gateway deletion, the subnet query and the
subnet deletions answer (failure, nothing found, or resources listed with
their identifiers), the worker requests exactly one VPC deletion, for the
first VPC listed, and it is its last request. -/
theorem vpc_deletion_always_requested (sess : Session) (region v : String)
    (restV : List (Option String))
    (hvpc : (sess region).DescribeVpcs [] = (some ⟨some v :: restV⟩, none))
    (hg : ∀ h out rest, (sess region).DescribeInternetGateways h v = (some out, none) →
      out.InternetGateways ≠ none :: rest)
    (hs : ∀ h out, (sess region).DescribeSubnets h v = (some out, none) →
      none ∉ out.Subnets) :
    (deleteDefaultVpc sess region).isPanicked = false ∧
    (∃ pre, (deleteDefaultVpc sess region).run.calls = pre ++ [.DeleteVpc v] ∧
      ∀ c ∈ pre, c.isDeleteVpc = false) ∧
    (deleteDefaultVpc sess region).run.calls.countP Call.isDeleteVpc = 1 := by
  obtain ⟨st1, h1⟩ := deleteInternetGateway_returns (sess region) region v (foundVpc region v)
    (hg _)
  obtain ⟨st2, h2⟩ := deleteSubnets_returns (sess region) region v st1 (hs _)
  obtain ⟨st3, h3, hc3⟩ := deleteVpc_returns (sess region) region v st2
  obtain ⟨gw, hgw, hgwall⟩ := deleteInternetGateway_shape (sess region) region v (foundVpc region v)
  obtain ⟨sn, hsn, hsnall⟩ := deleteSubnets_shape (sess region) region v st1
  rw [h1] at hgw
  rw [h2] at hsn
  simp only [Exec.run_returned] at hgw hsn
  have hrun : deleteDefaultVpc sess region = .returned st3 := by
    rw [deleteDefaultVpc_found sess region v restV hvpc, h1, Exec.andThen_returned, h2,
      Exec.andThen_returned, h3]
  have hpre : ∀ c ∈ st2.calls, c.isDeleteVpc = false := by
    intro c hc
    rw [hsn, hgw] at hc
    simp only [foundVpc, List.mem_append, List.mem_cons, List.not_mem_nil, or_false] at hc
    rcases hc with (rfl | hc) | rfl | hc
    · rfl
    · rcases hc with rfl | hc
      · rfl
      · exact isDeleteVpc_false_of_gateway c (hgwall c hc)
    · rfl
    · exact isDeleteVpc_false_of_subnet c (hsnall c hc)
  rw [hrun]
  refine ⟨rfl, ⟨st2.calls, hc3, hpre⟩, ?_⟩
  simp only [Exec.run_returned, hc3, List.countP_append, List.countP_cons, List.countP_nil,
    Call.isDeleteVpc]
  have : st2.calls.countP Call.isDeleteVpc = 0 := by
    rw [List.countP_eq_zero]
    intro c hc
    simp [hpre c hc]
  simp [this]

/-- Witness of C10: every detach and deletion fails. -/
theorem vpc_deletion_always_requested_witness :
    (deleteDefaultVpc (fun _ => allFailSvc) "a").isPanicked = false ∧
    (∃ pre, (deleteDefaultVpc (fun _ => allFailSvc) "a").run.calls = pre ++ [.DeleteVpc "v1"] ∧
      ∀ c ∈ pre, c.isDeleteVpc = false) ∧
    (deleteDefaultVpc (fun _ => allFailSvc) "a").run.calls.countP Call.isDeleteVpc = 1 :=
  vpc_deletion_always_requested (fun _ => allFailSvc) "a" "v1" [some "v2"] rfl
    (fun _ _ _ h => by
      simp only [allFailSvc, Prod.mk.injEq, Option.some.injEq, and_true] at h
      subst h
      simp)
    (fun _ _ h => by
      simp only [allFailSvc, Prod.mk.injEq, Option.some.injEq, and_true] at h
      subst h
      simp)

end DeleteDefaultVpc
